import Mathlib

/-!
Shallow embedding of the tari-dan consensus and storage core, translated from
the repository sources:

* dan_layer/consensus/src/block_validations.rs
* dan_layer/state_store_sqlite/src/writer.rs
* dan_layer/engine/src/state_store/memory.rs
* dan_layer/engine/src/runtime/state_store.rs

Identifiers (block ids, public keys, substate ids, hashes, payloads) are
abstracted to natural numbers; SQL tables become Lean lists of row structures;
fallible operations return Except.
-/

namespace TariDan

/-- Validator signature attached to a quorum certificate: (public_key, sig). -/
structure ValidatorSig where
  publicKey : Nat
  sig : Nat
deriving Repr, DecidableEq

/-- QuorumCertificate from consensus_models: the fields read by
check_quorum_certificate. The is_zero flag models qc.is_zero(). -/
structure QuorumCertificate where
  blockId : Nat
  blockHeight : Nat
  epoch : Nat
  shardGroup : Nat
  decision : Nat
  signatures : List ValidatorSig
  isZero : Bool
deriving Repr, DecidableEq

/-- Candidate Block as read by the block validation predicates. -/
structure CBlock where
  id : Nat
  parent : Nat
  height : Nat
  network : Nat
  proposedBy : Nat
  timestamp : Int
  isDummy : Bool
  isGenesis : Bool
  signature : Option Nat
  justify : QuorumCertificate
deriving Repr, DecidableEq

/-- ProposalValidationError constructors relevant to the embedded checks. -/
inductive ValidationError where
  | invalidNetwork
  | proposingGenesisBlock
  | nodeHashMismatch
  | notLeader
  | missingSignature (blockId height : Nat)
  | invalidSignature (blockId height : Nat)
  | candidateBlockNotHigherThanJustify (justifyBlockHeight candidateBlockHeight : Nat)
  | quorumWasNotReached
  | validatorNotInCommittee
  | qcInvalidSignature
  | qcConversionError
  | epochManagerError
deriving Repr, DecidableEq

/-- StorageError kinds used by the sqlite writer embedding. -/
inductive StorageError where
  | notFound
  | queryError
  | notAllTransactionsFound
deriving Repr, DecidableEq

/-- check_signature from block_validations.rs. The signature scheme is
abstracted by the verify parameter taking (signature, public_key, block_id). -/
def check_signature (verify : Nat → Nat → Nat → Bool) (b : CBlock) :
    Except ValidationError Unit :=
  if b.isDummy then Except.ok ()
  else if b.isGenesis then Except.ok ()
  else
    match b.signature with
    | none => Except.error (ValidationError.missingSignature b.id b.height)
    | some s =>
      if verify s b.proposedBy b.id then Except.ok ()
      else Except.error (ValidationError.invalidSignature b.id b.height)

/-- Store state seen by parked_blocks_insert: the set of block ids present in
the blocks table, and the parked_blocks table keyed by block id. -/
structure ParkedBlocksStore where
  blocks : List Nat
  parked : List (Nat × CBlock)
deriving Repr, DecidableEq

/-- parked_blocks_insert from writer.rs: refuse to park a block already in the
blocks table; parking an already-parked block is a no-op; otherwise insert a
new parked row. -/
def parked_blocks_insert (st : ParkedBlocksStore) (b : CBlock) :
    Except StorageError ParkedBlocksStore :=
  if st.blocks.contains b.id then
    Except.error StorageError.queryError
  else if (st.parked.find? (fun p => p.1 == b.id)).isSome then
    Except.ok st
  else
    Except.ok { st with parked := st.parked ++ [(b.id, b)] }

/-! Memory state store (engine/src/state_store/memory.rs). Keys and values are
byte vectors, modelled as lists of naturals; the HashMap is modelled as an
association list with insert-overwrite semantics. -/

abbrev Key := List Nat
abbrev Value := List Nat
abbrev KvMap := List (Key × Value)

/-- Remove every binding of a key (helper for insert-overwrite maps). -/
def kvRemove (m : KvMap) (k : Key) : KvMap :=
  m.filter (fun p => !(p.1 == k))

/-- HashMap::insert - the new binding replaces any previous binding of k. -/
def kvInsert (m : KvMap) (k : Key) (v : Value) : KvMap :=
  (k, v) :: kvRemove m k

/-- HashMap::get as an association-list lookup. -/
def kvLookup (m : KvMap) (k : Key) : Option Value :=
  (m.find? (fun p => p.1 == k)).map (fun p => p.2)

/-- StateStoreError::NotFound is the only error the memory store produces. -/
inductive StateStoreError where
  | notFound
deriving Repr, DecidableEq

/-- MemoryTransaction: a pending overlay over the guarded store map. -/
structure MemoryTransaction where
  pending : KvMap
  guard : KvMap
deriving Repr, DecidableEq

/-- StateWriter::set_state_raw - writes go to the pending overlay only. -/
def set_state_raw (tx : MemoryTransaction) (k : Key) (v : Value) : MemoryTransaction :=
  { tx with pending := kvInsert tx.pending k v }

/-- StateReader::get_state_raw - pending overlay first, then the guarded map. -/
def get_state_raw (tx : MemoryTransaction) (k : Key) : Except StateStoreError Value :=
  match kvLookup tx.pending k with
  | some v => Except.ok v
  | none =>
    match kvLookup tx.guard k with
    | some v => Except.ok v
    | none => Except.error StateStoreError.notFound

/-- StateWriter::commit - self.guard.extend(self.pending): every pending
binding is inserted into the underlying map, which becomes the new store. -/
def MemoryTransaction.commit (tx : MemoryTransaction) : KvMap :=
  tx.pending.foldl (fun acc p => kvInsert acc p.1 p.2) tx.guard

/-- AtomicDb::read_access - a fresh transaction starts with an empty pending
overlay over the current store contents. -/
def read_access (store : KvMap) : MemoryTransaction :=
  { pending := [], guard := store }

/-! Quorum certificate validation (block_validations.rs,
check_quorum_certificate). The epoch manager and vote signature service are
ports; they are abstracted as function fields of QcEnv. -/

/-- ValidatorNode fields read by the QC check: the routing shard key and the
network node hash used as the vote leaf hash. -/
structure ValidatorNode where
  shardKey : Nat
  nodeHash : Nat
deriving Repr, DecidableEq

/-- CommitteeInfo fields read by the QC check. -/
structure CommitteeInfo where
  shardGroup : Nat
  quorumThreshold : Nat
deriving Repr, DecidableEq

/-- Ports used by check_quorum_certificate: epoch manager lookups (returning
none models an epoch manager error) and the vote signature service. -/
structure QcEnv where
  getValidatorNode : Nat → Nat → Option ValidatorNode
  committeeInfoForSubstate : Nat → Nat → Option CommitteeInfo
  committeeInfoByPublicKey : Nat → Nat → Option CommitteeInfo
  createMessage : Nat → Nat → Nat → Nat
  verifySig : ValidatorSig → Nat → Bool

/-- First loop of check_quorum_certificate: resolve each signer to a validator
node, check its committee shard group against the QC shard group, and collect
the node hashes (vote leaf hashes). -/
def collectLeafHashes (env : QcEnv) (qc : QuorumCertificate) :
    List ValidatorSig → Except ValidationError (List Nat)
  | [] => Except.ok []
  | s :: rest =>
    match env.getValidatorNode qc.epoch s.publicKey with
    | none => Except.error ValidationError.epochManagerError
    | some vn =>
      match env.committeeInfoForSubstate qc.epoch vn.shardKey with
      | none => Except.error ValidationError.epochManagerError
      | some ci =>
        if ci.shardGroup ≠ qc.shardGroup then
          Except.error ValidationError.validatorNotInCommittee
        else
          match collectLeafHashes env qc rest with
          | Except.error e => Except.error e
          | Except.ok hs => Except.ok (vn.nodeHash :: hs)

/-- Second loop of check_quorum_certificate: verify each signature against the
challenge message built from its leaf hash, the QC block id and decision. -/
def checkQcSignatures (env : QcEnv) (qc : QuorumCertificate) :
    List (ValidatorSig × Nat) → Except ValidationError Unit
  | [] => Except.ok ()
  | (s, leaf) :: rest =>
    if env.verifySig s (env.createMessage leaf qc.blockId qc.decision) then
      checkQcSignatures env qc rest
    else Except.error ValidationError.qcInvalidSignature

/-- check_quorum_certificate from block_validations.rs. -/
def check_quorum_certificate (env : QcEnv) (b : CBlock) :
    Except ValidationError Unit :=
  let qc := b.justify
  if qc.isZero then Except.ok ()
  else if b.height ≤ qc.blockHeight then
    Except.error
      (ValidationError.candidateBlockNotHigherThanJustify qc.blockHeight b.height)
  else if qc.signatures.isEmpty then
    Except.error ValidationError.quorumWasNotReached
  else
    match collectLeafHashes env qc qc.signatures with
    | Except.error e => Except.error e
    | Except.ok vns =>
      match checkQcSignatures env qc (qc.signatures.zip vns) with
      | Except.error e => Except.error e
      | Except.ok _ =>
        match qc.signatures.head? with
        | none => Except.error ValidationError.quorumWasNotReached
        | some s0 =>
          match env.committeeInfoByPublicKey qc.epoch s0.publicKey with
          | none => Except.error ValidationError.epochManagerError
          | some cs =>
            if 2 ^ 32 ≤ qc.signatures.length then
              Except.error ValidationError.qcConversionError
            else if qc.signatures.length < cs.quorumThreshold then
              Except.error ValidationError.quorumWasNotReached
            else Except.ok ()

/-- Signer resolves to a validator node whose committee shard group matches
the QC shard group. -/
def sigCommitteeOk (env : QcEnv) (qc : QuorumCertificate) (s : ValidatorSig) : Bool :=
  match env.getValidatorNode qc.epoch s.publicKey with
  | none => false
  | some vn =>
    match env.committeeInfoForSubstate qc.epoch vn.shardKey with
    | none => false
    | some ci => ci.shardGroup == qc.shardGroup

/-- Leaf hash a signer contributes (0 when the signer does not resolve; only
used under a sigCommitteeOk hypothesis). -/
def sigLeafHash (env : QcEnv) (qc : QuorumCertificate) (s : ValidatorSig) : Nat :=
  match env.getValidatorNode qc.epoch s.publicKey with
  | none => 0
  | some vn => vn.nodeHash

/-- Signature verifies against its own challenge message. -/
def sigVerifies (env : QcEnv) (qc : QuorumCertificate) (s : ValidatorSig) : Bool :=
  env.verifySig s (env.createMessage (sigLeafHash env qc s) qc.blockId qc.decision)

/-! Engine runtime working state store (runtime/state_store.rs). Substate ids
are naturals; substate values are byte vectors. -/

/-- LockFlag from engine lock.rs. -/
inductive LockFlag where
  | read
  | write
deriving Repr, DecidableEq

/-- LockError kinds surfaced by the locking module. -/
inductive LockError where
  | lockConflict
  | substateNotLocked
deriving Repr, DecidableEq

/-- RuntimeError kinds raised by WorkingStateStore. -/
inductive RuntimeError where
  | substateNotFound (address : Nat)
  | duplicateSubstate (address : Nat)
  | lockError (e : LockError)
  | invariantError
deriving Repr, DecidableEq

/-- Modelled from the spec: the LockedSubstates lock table (runtime/locking.rs
is not under src). Per the spec lock model, Read locks are shared and Write
locks are exclusive, so acquiring Write conflicts with any existing lock on
the same substate and acquiring Read conflicts with an existing Write lock;
lock ids are allocated sequentially. -/
structure LockedSubstates where
  locks : List (Nat × Nat × LockFlag)
  nextId : Nat
deriving Repr, DecidableEq

/-- Modelled from the spec: LockedSubstates::try_lock grants a fresh lock id
unless a conflicting lock is held on the same substate. -/
def LockedSubstates.tryLock (ls : LockedSubstates) (addr : Nat) (flag : LockFlag) :
    Except LockError (Nat × LockedSubstates) :=
  let conflict := ls.locks.any (fun l =>
    l.2.1 == addr && (flag == LockFlag.write || l.2.2 == LockFlag.write))
  if conflict then Except.error LockError.lockConflict
  else Except.ok (ls.nextId, ⟨ls.locks ++ [(ls.nextId, addr, flag)], ls.nextId + 1⟩)

/-- Membership in an id-keyed association list. -/
def wssContains (l : List (Nat × Value)) (a : Nat) : Bool :=
  (l.find? (fun p => p.1 == a)).isSome

/-- WorkingStateStore: new substates, loaded substates, the lock table and the
backing memory state store contents. -/
structure WorkingStateStore where
  newSubstates : List (Nat × Value)
  loadedSubstates : List (Nat × Value)
  lockedSubstates : LockedSubstates
  stateStore : List (Nat × Value)
deriving Repr, DecidableEq

/-- WorkingStateStore::exists - checks new substates, loaded substates, then
the backing store. -/
def WorkingStateStore.existsSub (st : WorkingStateStore) (a : Nat) : Bool :=
  wssContains st.newSubstates a || wssContains st.loadedSubstates a ||
    wssContains st.stateStore a

/-- WorkingStateStore::load - a substate already in the working sets is left
as is; otherwise it is read from the backing store into loaded substates. -/
def WorkingStateStore.load (st : WorkingStateStore) (a : Nat) :
    Except RuntimeError WorkingStateStore :=
  if wssContains st.newSubstates a then Except.ok st
  else if wssContains st.loadedSubstates a then Except.ok st
  else
    match (st.stateStore.find? (fun p => p.1 == a)).map (fun p => p.2) with
    | none => Except.error (RuntimeError.substateNotFound a)
    | some v =>
      Except.ok { st with loadedSubstates := st.loadedSubstates ++ [(a, v)] }

/-- WorkingStateStore::try_lock - returns the result together with the store
state afterwards (mirroring the Rust mutable receiver). -/
def WorkingStateStore.try_lock (st : WorkingStateStore) (a : Nat) (flag : LockFlag) :
    Except RuntimeError Nat × WorkingStateStore :=
  if st.existsSub a = false then
    (Except.error (RuntimeError.substateNotFound a), st)
  else
    match st.lockedSubstates.tryLock a flag with
    | Except.error e => (Except.error (RuntimeError.lockError e), st)
    | Except.ok (lockId, ls) =>
      let st1 := { st with lockedSubstates := ls }
      match st1.load a with
      | Except.error e => (Except.error e, st1)
      | Except.ok st2 => (Except.ok lockId, st2)

/-- WorkingStateStore::insert - refuses to shadow an existing substate. -/
def WorkingStateStore.insert (st : WorkingStateStore) (a : Nat) (v : Value) :
    Except RuntimeError Unit × WorkingStateStore :=
  if st.existsSub a then
    (Except.error (RuntimeError.duplicateSubstate a), st)
  else
    (Except.ok (), { st with newSubstates := st.newSubstates ++ [(a, v)] })

/-! Blocks table and blocks_insert (writer.rs). Only the columns involved in
the block_time computation are modelled. -/

/-- Row of the blocks table. -/
structure BlockRow where
  blockId : Nat
  parentBlockId : Nat
  timestamp : Int
  blockTime : Option Int
deriving Repr, DecidableEq

/-- SELECT timestamp FROM blocks WHERE block_id = bid. -/
def findTimestamp (tbl : List BlockRow) (bid : Nat) : Option Int :=
  (tbl.find? (fun r => r.blockId == bid)).map (fun r => r.timestamp)

/-- blocks_insert from writer.rs: insert the row (block_time initially null),
then run the UPDATE setting block_time = timestamp minus the timestamp of the
block whose id is the JUSTIFY QC block id (null when that block is absent,
since the SQL subquery yields NULL). -/
def newBlockRow (b : CBlock) : BlockRow :=
  { blockId := b.id, parentBlockId := b.parent, timestamp := b.timestamp,
    blockTime := none }

def updateRowTime (b : CBlock) (ts : Option Int) (r : BlockRow) : BlockRow :=
  if r.blockId == b.id then
    { r with blockTime := Option.map (fun t => b.timestamp - t) ts }
  else r

def blocks_insert (tbl : List BlockRow) (b : CBlock) : List BlockRow :=
  List.map
    (updateRowTime b (findTimestamp (tbl ++ [newBlockRow b]) b.justify.blockId))
    (tbl ++ [newBlockRow b])

/-- SELECT block_time FROM blocks WHERE block_id = bid. -/
def blockTimeOf (tbl : List BlockRow) (bid : Nat) : Option (Option Int) :=
  (tbl.find? (fun r => r.blockId == bid)).map (fun r => r.blockTime)

/-! Chunked bulk writes (writer.rs: block_diffs_insert and
substate_locks_insert_all). Only the batching structure is modelled; records
are abstract. -/

/-- Fuel-indexed model of slice::chunks; fuel at least the list length makes
it total (each step with a positive chunk size consumes at least one
element). -/
def chunkFuel (n : Nat) : Nat → List α → List (List α)
  | _, [] => []
  | 0, _ :: _ => []
  | fuel + 1, a :: rest =>
    ((a :: rest).take n) :: chunkFuel n fuel ((a :: rest).drop n)

/-- block_diff.changes.chunks(1000): the per-insert batches of
block_diffs_insert. -/
def block_diffs_insert_batches (changes : List Nat) : List (List Nat) :=
  chunkFuel 1000 changes.length changes

/-- Lock rows produced for one (substate id, locks) pair. -/
def lockRowsOf (p : Nat × List Nat) : List (Nat × Nat) :=
  p.2.map (fun l => (p.1, l))

/-- Loop body of substate_locks_insert_all: take up to 100 pairs from the
iterator, flatten them to lock rows; stop when no rows, insert, and stop when
fewer than 100 rows came out. -/
def substateLockBatchesFuel : Nat → List (Nat × List Nat) → List (List (Nat × Nat))
  | 0, _ => []
  | fuel + 1, pairs =>
    let rows := (pairs.take 100).flatMap lockRowsOf
    if rows.length = 0 then []
    else if rows.length < 100 then [rows]
    else rows :: substateLockBatchesFuel fuel (pairs.drop 100)

/-- substate_locks_insert_all from writer.rs: the per-insert batches of lock
rows. -/
def substate_locks_insert_all_batches (pairs : List (Nat × List Nat)) :
    List (List (Nat × Nat)) :=
  substateLockBatchesFuel (pairs.length + 1) pairs

/-! Substates and per-shard state transitions (writer.rs: substates_create
and substates_down). -/

/-- UP/DOWN transition kind. -/
inductive Transition where
  | up
  | down
deriving Repr, DecidableEq

/-- Row of the state_transitions table. -/
structure StateTransitionRow where
  seq : Int
  epoch : Nat
  shard : Nat
  substateAddress : Nat
  substateId : Nat
  version : Nat
  transition : Transition
  stateHash : Option Nat
  stateVersion : Nat
deriving Repr, DecidableEq

/-- The destroyed_* column group of a substates row. -/
structure DestroyedInfo where
  byTransaction : Nat
  byBlockHeight : Nat
  atEpoch : Nat
  byShard : Nat
  justify : Nat
deriving Repr, DecidableEq

/-- SubstateRecord consensus model as consumed by substates_create. -/
structure SubstateRecord where
  substateId : Nat
  version : Nat
  substateValue : Nat
  stateHash : Nat
  createdByTransaction : Nat
  createdJustify : Nat
  createdBlock : Nat
  createdHeight : Nat
  createdAtEpoch : Nat
  createdByShard : Nat
  destroyed : Option DestroyedInfo
deriving Repr, DecidableEq

/-- Substate address derived from (substate id, version); the address hash is
modelled by the injective Cantor pairing function. -/
def toSubstateAddress (substateId version : Nat) : Nat :=
  Nat.pair substateId version

/-- Row of the substates table. -/
structure SubstateRow where
  address : Nat
  substateId : Nat
  version : Nat
  data : Nat
  stateHash : Nat
  createdByTransaction : Nat
  createdJustify : Nat
  createdBlock : Nat
  createdHeight : Nat
  createdAtEpoch : Nat
  createdByShard : Nat
  destroyed : Option DestroyedInfo
deriving Repr, DecidableEq

/-- Store state touched by substates_create and substates_down. -/
structure SubstateStore where
  substates : List SubstateRow
  stateTransitions : List StateTransitionRow
  stateTreeShardVersions : List (Nat × Nat)
deriving Repr, DecidableEq

/-- Modelled from the spec: state_tree_versions_get_latest (reader.rs is not
under src) reads the state_tree_shard_versions row for the shard. -/
def state_tree_versions_get_latest (st : SubstateStore) (shard : Nat) : Option Nat :=
  (st.stateTreeShardVersions.find? (fun p => p.1 == shard)).map (fun p => p.2)

/-- SQL MAX over recorded seq values. -/
def maxSeq? : List Int → Option Int
  | [] => none
  | x :: xs => some (xs.foldl max x)

/-- The seq values recorded for one shard, in insertion order. -/
def seqsForShard (tbl : List StateTransitionRow) (shard : Nat) : List Int :=
  tbl.filterMap (fun r => if r.shard == shard then some r.seq else none)

/-- Next sequence number as computed by the writer: MAX(seq) + 1 for the
shard, or 0 when the shard has no transitions. -/
def nextSeqFor (tbl : List StateTransitionRow) (shard : Nat) : Int :=
  match maxSeq? (seqsForShard tbl shard) with
  | none => 0
  | some s => s + 1

/-- The substates row inserted by substates_create. -/
def createdSubstateRow (sub : SubstateRecord) : SubstateRow :=
  { address := toSubstateAddress sub.substateId sub.version,
    substateId := sub.substateId, version := sub.version,
    data := sub.substateValue, stateHash := sub.stateHash,
    createdByTransaction := sub.createdByTransaction,
    createdJustify := sub.createdJustify, createdBlock := sub.createdBlock,
    createdHeight := sub.createdHeight, createdAtEpoch := sub.createdAtEpoch,
    createdByShard := sub.createdByShard, destroyed := none }

/-- The UP state_transitions row inserted by substates_create. -/
def createdTransitionRow (st : SubstateStore) (sub : SubstateRecord) :
    StateTransitionRow :=
  { seq := nextSeqFor st.stateTransitions sub.createdByShard,
    epoch := sub.createdAtEpoch, shard := sub.createdByShard,
    substateAddress := toSubstateAddress sub.substateId sub.version,
    substateId := sub.substateId, version := sub.version,
    transition := Transition.up, stateHash := some sub.stateHash,
    stateVersion := (state_tree_versions_get_latest st sub.createdByShard).getD 0 }

/-- substates_create from writer.rs: reject destroyed records, insert the
substates row, then append an UP transition with seq = MAX(seq)+1 (or 0). -/
def substates_create (st : SubstateStore) (sub : SubstateRecord) :
    Except StorageError SubstateStore :=
  if sub.destroyed.isSome then Except.error StorageError.queryError
  else
    Except.ok
      { st with
        substates := st.substates ++ [createdSubstateRow sub],
        stateTransitions := st.stateTransitions ++ [createdTransitionRow st sub] }

/-- The DOWN state_transitions row inserted by substates_down. -/
def downTransitionRow (st : SubstateStore) (substateId version shard epoch : Nat) :
    StateTransitionRow :=
  { seq := nextSeqFor st.stateTransitions shard,
    epoch := epoch, shard := shard,
    substateAddress := toSubstateAddress substateId version,
    substateId := substateId, version := version,
    transition := Transition.down, stateHash := none,
    stateVersion := (state_tree_versions_get_latest st shard).getD 0 }

/-- substates_down from writer.rs: set the destroyed_* columns on the row at
the substate address, then append a DOWN transition with seq = MAX(seq)+1
(or 0). -/
def substates_down (st : SubstateStore)
    (substateId version shard epoch destroyedBlockHeight : Nat)
    (destroyedTransactionId destroyedQcId : Nat) : SubstateStore :=
  let info : DestroyedInfo :=
    { byTransaction := destroyedTransactionId,
      byBlockHeight := destroyedBlockHeight, atEpoch := epoch,
      byShard := shard, justify := destroyedQcId }
  { st with
    substates := st.substates.map (fun r =>
      if r.address == toSubstateAddress substateId version then
        { r with destroyed := some info }
      else r),
    stateTransitions :=
      st.stateTransitions ++ [downTransitionRow st substateId version shard epoch] }

/-- Per-shard seq values are exactly 0, 1, ..., n-1 in insertion order:
strictly increasing by one with no gaps, starting at 0. -/
def shardSeqsOk (tbl : List StateTransitionRow) : Prop :=
  ∀ shard : Nat, seqsForShard tbl shard =
    (List.range (seqsForShard tbl shard).length).map Int.ofNat

/-! Missing transactions and parked blocks (writer.rs:
missing_transactions_insert, missing_transactions_remove,
parked_blocks_remove). -/

/-- Row of the missing_transactions table. -/
structure MissingRow where
  blockId : Nat
  blockHeight : Nat
  transactionId : Nat
  isAwaitingExecution : Bool
deriving Repr, DecidableEq

/-- Store state touched by missing_transactions_remove. -/
structure MissingStore where
  missing : List MissingRow
  parked : List (Nat × CBlock)
deriving Repr, DecidableEq

/-- parked_blocks_remove from writer.rs: look up the parked block, delete its
rows, and return it; NotFound when absent. -/
def parked_blocks_remove (parked : List (Nat × CBlock)) (blockId : Nat) :
    Except StorageError (CBlock × List (Nat × CBlock)) :=
  match parked.find? (fun p => p.1 == blockId) with
  | none => Except.error StorageError.notFound
  | some p => Except.ok (p.2, parked.filter (fun q => !(q.1 == blockId)))

/-- missing_transactions_insert from writer.rs: park the block (rejecting
blocks already in the blocks table), then record one row per missing or
awaiting transaction id at the block height. -/
def missing_transactions_insert (blocks : List Nat) (st : MissingStore)
    (b : CBlock) (missingIds awaitingIds : List Nat) :
    Except StorageError MissingStore :=
  match parked_blocks_insert { blocks := blocks, parked := st.parked } b with
  | Except.error e => Except.error e
  | Except.ok pbs =>
    Except.ok
      { missing := st.missing
          ++ missingIds.map (fun t =>
            { blockId := b.id, blockHeight := b.height, transactionId := t,
              isAwaitingExecution := false })
          ++ awaitingIds.map (fun t =>
            { blockId := b.id, blockHeight := b.height, transactionId := t,
              isAwaitingExecution := true }),
        parked := pbs.parked }

/-- missing_transactions_remove from writer.rs: find the block recorded as
missing transaction tx at the given height; delete every row for tx; when no
rows remain for that block, also delete rows below the height, unpark the
block and return it; otherwise return none. -/
def missing_transactions_remove (st : MissingStore) (currentHeight tx : Nat) :
    Except StorageError (Option CBlock × MissingStore) :=
  match st.missing.find?
      (fun r => r.transactionId == tx && r.blockHeight == currentHeight) with
  | none => Except.ok (none, st)
  | some row =>
    let m1 := st.missing.filter (fun r => !(r.transactionId == tx))
    if (m1.filter (fun r => r.blockId == row.blockId)).isEmpty then
      match parked_blocks_remove st.parked row.blockId with
      | Except.error e => Except.error e
      | Except.ok (blk, parked2) =>
        Except.ok (some blk,
          { missing := m1.filter (fun r => !(r.blockHeight < currentHeight)),
            parked := parked2 })
    else
      Except.ok (none, { st with missing := m1 })

/-! Transaction pool promotion (writer.rs:
transaction_pool_set_all_transitions). Stages, decisions and evidence values
are abstract naturals. -/

/-- Row of the transaction_pool table (fields written by the promotion). -/
structure PoolRow where
  transactionId : Nat
  stage : Nat
  localDecision : Option Nat
  evidence : Option Nat
  isReady : Bool
deriving Repr, DecidableEq

/-- Row of the transaction_pool_state_updates table. -/
structure UpdateRow where
  blockId : Nat
  blockHeight : Nat
  transactionId : Nat
  stage : Nat
  localDecision : Option Nat
  evidence : Option Nat
  isReady : Bool
deriving Repr, DecidableEq

/-- Store state touched by transaction_pool_set_all_transitions. -/
structure PoolState where
  pool : List PoolRow
  updates : List UpdateRow
deriving Repr, DecidableEq

/-- LockedBlock pointer fields used by the promotion. -/
structure LockedBlockRef where
  blockId : Nat
  height : Nat
deriving Repr, DecidableEq

/-- Modelled from the spec: get_transaction_atom_state_updates_between_blocks
(reader.rs is not under src); per the spec the promotion takes, for each
queried transaction, the latest pending update with block height at most the
new locked block height. -/
def latestUpdateUpTo (updates : List UpdateRow) (hgt : Nat) (tx : Nat) :
    Option UpdateRow :=
  (updates.filter
      (fun u => u.transactionId == tx && decide (u.blockHeight ≤ hgt))).foldl
    (fun acc u =>
      match acc with
      | none => some u
      | some a => if a.blockHeight ≤ u.blockHeight then some u else some a)
    none

/-- The UPDATE applied to the pool row for one promoted update: set stage,
local decision, evidence and is_ready. -/
def mergeRow (r : PoolRow) (u : UpdateRow) : PoolRow :=
  { r with stage := u.stage, localDecision := u.localDecision,
           evidence := u.evidence, isReady := u.isReady }

/-- One iteration of the promotion loop: update the pool rows matching the
promoted update's transaction id. -/
def applyUpdate (pool : List PoolRow) (u : UpdateRow) : List PoolRow :=
  pool.map (fun r =>
    if r.transactionId == u.transactionId then mergeRow r u else r)

/-- transaction_pool_set_all_transitions from writer.rs: fail with
NotAllTransactionsFound when the pool row count for the queried ids differs
from the id count; otherwise delete every pending update for those ids with
block height at most the new locked height and apply the latest such update
per transaction to its pool row. -/
def transaction_pool_set_all_transitions (st : PoolState)
    (lockedBlock newLockedBlock : LockedBlockRef) (txIds : List Nat) :
    Except StorageError PoolState :=
  let count := (st.pool.filter (fun r => txIds.contains r.transactionId)).length
  if count ≠ txIds.length then
    Except.error StorageError.notAllTransactionsFound
  else
    let promoted := txIds.filterMap (latestUpdateUpTo st.updates newLockedBlock.height)
    Except.ok
      { pool := promoted.foldl applyUpdate st.pool,
        updates := st.updates.filter (fun u =>
          !(txIds.contains u.transactionId &&
            decide (u.blockHeight ≤ newLockedBlock.height))) }

/-! Concrete inputs used by witness theorems. -/

/-- Example signature scheme: a signature is valid when it equals
public_key + block_id. -/
def vfEx : Nat → Nat → Nat → Bool := fun s pk bid => s == pk + bid

/-- The zero quorum certificate. -/
def qcZeroEx : QuorumCertificate :=
  { blockId := 0, blockHeight := 0, epoch := 0, shardGroup := 0, decision := 0,
    signatures := [], isZero := true }

/-- A dummy block (no signature expected). -/
def bDummyEx : CBlock :=
  { id := 1, parent := 0, height := 2, network := 0, proposedBy := 5,
    timestamp := 0, isDummy := true, isGenesis := false, signature := none,
    justify := qcZeroEx }

/-- A non-dummy block lacking a signature. -/
def bMissingEx : CBlock := { bDummyEx with isDummy := false, signature := none }

/-- A non-dummy block carrying a signature that does not verify under vfEx. -/
def bBadSigEx : CBlock := { bDummyEx with isDummy := false, signature := some 99 }

/-- A non-dummy block carrying a signature that verifies under vfEx. -/
def bGoodSigEx : CBlock := { bDummyEx with isDummy := false, signature := some 6 }

/-- A parked-blocks store for the C10 witness: block 1 already in blocks,
block 7 already parked (stored under a different payload than bDummyEx). -/
def parkedStoreEx : ParkedBlocksStore :=
  { blocks := [1], parked := [(7, bGoodSigEx)] }

/-- Example QC environment: every public key resolves to a validator node in
shard group 1, threshold 3; a signature is valid when it equals the challenge
message plus the public key. -/
def qcEnvEx : QcEnv :=
  { getValidatorNode := fun _ pk => some { shardKey := pk, nodeHash := pk + 100 },
    committeeInfoForSubstate := fun _ _ => some { shardGroup := 1, quorumThreshold := 3 },
    committeeInfoByPublicKey := fun _ _ => some { shardGroup := 1, quorumThreshold := 3 },
    createMessage := fun leaf bid dec => leaf * 1000000 + bid * 1000 + dec,
    verifySig := fun s m => s.sig == m + s.publicKey }

/-- Valid signature for public key pk over block id 42 and decision 0 in
qcEnvEx. -/
def mkSigEx (pk : Nat) : ValidatorSig :=
  { publicKey := pk, sig := (pk + 100) * 1000000 + 42000 + pk }

/-- QC with two valid signatures (short of the threshold 3). -/
def qcTwoEx : QuorumCertificate :=
  { blockId := 42, blockHeight := 1, epoch := 0, shardGroup := 1, decision := 0,
    signatures := [mkSigEx 10, mkSigEx 11], isZero := false }

/-- QC with three valid signatures (meets the threshold 3). -/
def qcThreeEx : QuorumCertificate :=
  { qcTwoEx with signatures := [mkSigEx 10, mkSigEx 11, mkSigEx 12] }

/-- Candidate block not higher than its justify QC. -/
def bQcLowEx : CBlock := { bDummyEx with height := 1, justify := qcTwoEx }

/-- Candidate block whose justify QC has no signatures. -/
def bQcEmptyEx : CBlock :=
  { bDummyEx with height := 2, justify := { qcTwoEx with signatures := [] } }

/-- Candidate block whose justify QC has only two of three required
signatures. -/
def bQcTwoEx : CBlock := { bDummyEx with height := 2, justify := qcTwoEx }

/-- Candidate block whose justify QC meets the quorum threshold. -/
def bQcThreeEx : CBlock := { bDummyEx with height := 2, justify := qcThreeEx }

/-- Working state store for the C9 witness: substate 1 in the working set,
substate 2 in the backing store, substate 3 nowhere. -/
def wssEx : WorkingStateStore :=
  { newSubstates := [(1, [1])], loadedSubstates := [],
    lockedSubstates := { locks := [], nextId := 0 }, stateStore := [(2, [2])] }

/-- SubstateRecord for the C2 witness (shard 2, not destroyed). -/
def subRecEx : SubstateRecord :=
  { substateId := 4, version := 0, substateValue := 11, stateHash := 13,
    createdByTransaction := 1, createdJustify := 2, createdBlock := 3,
    createdHeight := 5, createdAtEpoch := 0, createdByShard := 2,
    destroyed := none }

/-- Empty substate store for the C2 witness. -/
def subStoreEx : SubstateStore :=
  { substates := [], stateTransitions := [], stateTreeShardVersions := [] }

/-- Missing-transaction row for parked block 5, height 2, transaction 9. -/
def missRow1Ex : MissingRow :=
  { blockId := 5, blockHeight := 2, transactionId := 9, isAwaitingExecution := false }

/-- Missing-transaction row for parked block 5, height 2, transaction 8. -/
def missRow2Ex : MissingRow :=
  { blockId := 5, blockHeight := 2, transactionId := 8, isAwaitingExecution := false }

/-- Store with two missing transactions for parked block 5. -/
def missStoreEx : MissingStore :=
  { missing := [missRow1Ex, missRow2Ex], parked := [(5, bGoodSigEx)] }

/-- Store where transaction 9 is the last missing transaction of block 5. -/
def missStoreLastEx : MissingStore :=
  { missing := [missRow1Ex], parked := [(5, bGoodSigEx)] }

/-- Pool row for the C3 witness: transaction 1 at the initial stage. -/
def poolRowEx : PoolRow :=
  { transactionId := 1, stage := 0, localDecision := none, evidence := none,
    isReady := false }

/-- Pending update moving transaction 1 to stage 2 at block height 3. -/
def updRowEx : UpdateRow :=
  { blockId := 11, blockHeight := 3, transactionId := 1, stage := 2,
    localDecision := some 1, evidence := some 5, isReady := true }

/-- Pool state for the C3 witness. -/
def poolStEx : PoolState := { pool := [poolRowEx], updates := [updRowEx] }

/-- Old locked block at height 2. -/
def lbEx : LockedBlockRef := { blockId := 10, height := 2 }

/-- New locked block at height 3. -/
def nlbEx : LockedBlockRef := { blockId := 11, height := 3 }

/-- Blocks table for the C5 counterexample: parent block 1 at timestamp 5 and
justify block 2 at timestamp 3. -/
def tblC5Ex : List BlockRow :=
  [{ blockId := 1, parentBlockId := 0, timestamp := 5, blockTime := none },
   { blockId := 2, parentBlockId := 0, timestamp := 3, blockTime := none }]

/-- Block whose parent (id 1) differs from its justify block (id 2). -/
def bC5Ex : CBlock :=
  { bDummyEx with
    id := 3
    parent := 1
    timestamp := 10
    justify := { qcZeroEx with blockId := 2 } }

/-! Helper lemmas for the memory store. -/

theorem kvLookup_insert_self (m : KvMap) (k : Key) (v : Value) :
    kvLookup (kvInsert m k v) k = some v := by
  simp [kvLookup, kvInsert, List.find?]

theorem kvLookup_insert_ne (m : KvMap) (k k' : Key) (v : Value)
    (h : (k' == k) = false) : kvLookup (kvInsert m k' v) k = kvLookup m k := by
  simp only [kvLookup, kvInsert, List.find?, h, kvRemove]
  induction m with
  | nil => rfl
  | cons p rest ih =>
    by_cases hp : (p.1 == k') = true
    · have hpk : (p.1 == k) = false := by
        have h1 : p.1 = k' := by
          exact eq_of_beq hp
        subst h1
        exact h
      simp [List.filter, hp, List.find?, hpk] at ih ⊢
      exact ih
    · simp only [List.filter, hp, Bool.not_eq_true] at ih ⊢
      by_cases hpk : (p.1 == k) = true
      · simp [List.find?, hpk]
      · simp only [Bool.not_eq_true] at hpk
        simp [List.find?, hpk] at ih ⊢
        exact ih

theorem kvLookup_foldl_insert_not_mem (rest : KvMap) (m : KvMap) (k : Key)
    (h : ∀ p ∈ rest, (p.1 == k) = false) :
    kvLookup (rest.foldl (fun acc p => kvInsert acc p.1 p.2) m) k = kvLookup m k := by
  induction rest generalizing m with
  | nil => rfl
  | cons p rest ih =>
    simp only [List.foldl]
    rw [ih _ (fun q hq => h q (List.mem_cons_of_mem p hq))]
    exact kvLookup_insert_ne m k p.1 p.2 (h p (List.mem_cons_self p rest))

theorem kvRemove_not_mem (m : KvMap) (k : Key) :
    ∀ p ∈ kvRemove m k, (p.1 == k) = false := by
  intro p hp
  have := List.of_mem_filter hp
  simpa using this

/-- C7: check_signature succeeds without verifying anything on dummy or
genesis blocks; otherwise it returns MissingSignature when the block carries
no signature, InvalidSignature when the signature does not verify over the
block id under proposed_by, and succeeds when it does verify. -/
theorem check_signature_spec (verify : Nat → Nat → Nat → Bool) (b : CBlock) :
    (b.isDummy = true → check_signature verify b = Except.ok ())
    ∧ (b.isGenesis = true → check_signature verify b = Except.ok ())
    ∧ (b.isDummy = false → b.isGenesis = false → b.signature = none →
        check_signature verify b =
          Except.error (ValidationError.missingSignature b.id b.height))
    ∧ (∀ s, b.isDummy = false → b.isGenesis = false → b.signature = some s →
        verify s b.proposedBy b.id = false →
        check_signature verify b =
          Except.error (ValidationError.invalidSignature b.id b.height))
    ∧ (∀ s, b.isDummy = false → b.isGenesis = false → b.signature = some s →
        verify s b.proposedBy b.id = true →
        check_signature verify b = Except.ok ()) := by
  refine ⟨?_, ?_, ?_, ?_, ?_⟩
  · intro h
    simp [check_signature, h]
  · intro h
    by_cases hd : b.isDummy <;> simp [check_signature, h, hd]
  · intro hd hg hs
    simp [check_signature, hd, hg, hs]
  · intro s hd hg hs hv
    simp [check_signature, hd, hg, hs, hv]
  · intro s hd hg hs hv
    simp [check_signature, hd, hg, hs, hv]

/-- Witness for C7 at concrete blocks: one case for each branch. -/
theorem check_signature_spec_witness :
    check_signature vfEx bDummyEx = Except.ok ()
    ∧ check_signature vfEx bMissingEx =
        Except.error (ValidationError.missingSignature 1 2)
    ∧ check_signature vfEx bBadSigEx =
        Except.error (ValidationError.invalidSignature 1 2)
    ∧ check_signature vfEx bGoodSigEx = Except.ok () :=
  ⟨(check_signature_spec vfEx bDummyEx).1 rfl,
   (check_signature_spec vfEx bMissingEx).2.2.1 rfl rfl rfl,
   (check_signature_spec vfEx bBadSigEx).2.2.2.1 99 rfl rfl rfl (by decide),
   (check_signature_spec vfEx bGoodSigEx).2.2.2.2 6 rfl rfl rfl (by decide)⟩

/-- C10: parked_blocks_insert fails with a QueryError (inserting nothing) when
the block id already exists in the blocks table; returns Ok leaving the stored
parked row untouched when the block is already parked; and inserts a new
parked row only when the block is in neither table. -/
theorem parked_blocks_insert_spec (st : ParkedBlocksStore) (b : CBlock) :
    (st.blocks.contains b.id = true →
      parked_blocks_insert st b = Except.error StorageError.queryError)
    ∧ (st.blocks.contains b.id = false →
        (st.parked.find? (fun p => p.1 == b.id)).isSome = true →
        parked_blocks_insert st b = Except.ok st)
    ∧ (st.blocks.contains b.id = false →
        (st.parked.find? (fun p => p.1 == b.id)).isSome = false →
        parked_blocks_insert st b =
          Except.ok { st with parked := st.parked ++ [(b.id, b)] }) := by
  refine ⟨?_, ?_, ?_⟩
  · intro h
    simp only [parked_blocks_insert, h]
    simp
  · intro h hp
    simp only [parked_blocks_insert, h, hp]
    simp
  · intro h hp
    simp only [parked_blocks_insert, h, hp]
    simp

/-- Witness for C10: block 1 collides with the blocks table, parking block 7
again is an unchanged no-op, and a fresh block 9 is inserted. -/
theorem parked_blocks_insert_spec_witness :
    parked_blocks_insert parkedStoreEx bDummyEx = Except.error StorageError.queryError
    ∧ parked_blocks_insert parkedStoreEx { bDummyEx with id := 7 } =
        Except.ok parkedStoreEx
    ∧ parked_blocks_insert parkedStoreEx { bDummyEx with id := 9 } =
        Except.ok { parkedStoreEx with
          parked := parkedStoreEx.parked ++ [(9, { bDummyEx with id := 9 })] } :=
  ⟨(parked_blocks_insert_spec parkedStoreEx bDummyEx).1 (by decide),
   (parked_blocks_insert_spec parkedStoreEx { bDummyEx with id := 7 }).2.1
     (by decide) (by decide),
   (parked_blocks_insert_spec parkedStoreEx { bDummyEx with id := 9 }).2.2
     (by decide) (by decide)⟩

/-- C8: inside a MemoryStateStore write transaction, a value written with
set_state_raw is returned by get_state_raw in the same transaction while the
underlying store map (the guard) is unchanged - so dropping the transaction
without commit leaves the store as before - and after commit a fresh read
transaction over the committed store sees the value. -/
theorem memory_store_isolation_spec (tx : MemoryTransaction) (k : Key) (v : Value) :
    get_state_raw (set_state_raw tx k v) k = Except.ok v
    ∧ (set_state_raw tx k v).guard = tx.guard
    ∧ get_state_raw (read_access (MemoryTransaction.commit (set_state_raw tx k v))) k =
        Except.ok v := by
  refine ⟨?_, rfl, ?_⟩
  · simp [get_state_raw, set_state_raw, kvLookup_insert_self]
  · have hcommit :
        kvLookup (MemoryTransaction.commit (set_state_raw tx k v)) k = some v := by
      show kvLookup
        (((k, v) :: kvRemove tx.pending k).foldl
          (fun acc p => kvInsert acc p.1 p.2) tx.guard) k = some v
      rw [List.foldl_cons]
      rw [kvLookup_foldl_insert_not_mem _ _ _ (kvRemove_not_mem tx.pending k)]
      exact kvLookup_insert_self tx.guard k v
    have hnil : kvLookup [] k = none := rfl
    simp [get_state_raw, read_access, hnil, hcommit]

theorem collectLeafHashes_ok (env : QcEnv) (qc : QuorumCertificate) :
    ∀ sigs : List ValidatorSig, (∀ s ∈ sigs, sigCommitteeOk env qc s = true) →
      collectLeafHashes env qc sigs = Except.ok (sigs.map (sigLeafHash env qc))
  | [], _ => rfl
  | s :: rest, h => by
    have hs := h s (List.mem_cons_self s rest)
    have ih :=
      collectLeafHashes_ok env qc rest (fun q hq => h q (List.mem_cons_of_mem s hq))
    unfold sigCommitteeOk at hs
    unfold collectLeafHashes
    cases heq : env.getValidatorNode qc.epoch s.publicKey with
    | none =>
      simp [heq] at hs
    | some vn =>
      simp only [heq] at hs
      cases heq2 : env.committeeInfoForSubstate qc.epoch vn.shardKey with
      | none =>
        simp [heq2] at hs
      | some ci =>
        simp only [heq2] at hs
        have hg : ci.shardGroup = qc.shardGroup := by simpa using hs
        simp [ih, hg, sigLeafHash, heq, heq2]

theorem checkQcSignatures_ok (env : QcEnv) (qc : QuorumCertificate) :
    ∀ sigs : List ValidatorSig, (∀ s ∈ sigs, sigVerifies env qc s = true) →
      checkQcSignatures env qc (sigs.zip (sigs.map (sigLeafHash env qc))) =
        Except.ok ()
  | [], _ => rfl
  | s :: rest, h => by
    have hs := h s (List.mem_cons_self s rest)
    have ih :=
      checkQcSignatures_ok env qc rest (fun q hq => h q (List.mem_cons_of_mem s hq))
    unfold sigVerifies at hs
    simp only [List.map_cons, List.zip_cons_cons]
    unfold checkQcSignatures
    rw [hs]
    simpa using ih

/-- C1: check_quorum_certificate accepts immediately on a zero QC; otherwise
it rejects with CandidateBlockNotHigherThanJustify when the block is not
higher than the justify QC, rejects with QuorumWasNotReached when the QC
carries no signatures or (all signers being committee members with valid
signatures) fewer than the committee quorum threshold, and succeeds when the
QC is non-zero, high enough, and carries at least quorum-threshold valid
committee signatures. -/
theorem check_quorum_certificate_spec (env : QcEnv) (b : CBlock) :
    (b.justify.isZero = true →
      check_quorum_certificate env b = Except.ok ())
    ∧ (b.justify.isZero = false → b.height ≤ b.justify.blockHeight →
      check_quorum_certificate env b =
        Except.error (ValidationError.candidateBlockNotHigherThanJustify
          b.justify.blockHeight b.height))
    ∧ (b.justify.isZero = false → b.justify.blockHeight < b.height →
      b.justify.signatures = [] →
      check_quorum_certificate env b =
        Except.error ValidationError.quorumWasNotReached)
    ∧ (∀ s0 cs, b.justify.isZero = false → b.justify.blockHeight < b.height →
      b.justify.signatures.head? = some s0 →
      (∀ s ∈ b.justify.signatures, sigCommitteeOk env b.justify s = true) →
      (∀ s ∈ b.justify.signatures, sigVerifies env b.justify s = true) →
      env.committeeInfoByPublicKey b.justify.epoch s0.publicKey = some cs →
      b.justify.signatures.length < 2 ^ 32 →
      ((b.justify.signatures.length < cs.quorumThreshold →
          check_quorum_certificate env b =
            Except.error ValidationError.quorumWasNotReached)
        ∧ (cs.quorumThreshold ≤ b.justify.signatures.length →
          check_quorum_certificate env b = Except.ok ()))) := by
  refine ⟨?_, ?_, ?_, ?_⟩
  · intro hz
    simp [check_quorum_certificate, hz]
  · intro hz hle
    simp [check_quorum_certificate, hz, hle]
  · intro hz hlt hsigs
    have hle : ¬ (b.height ≤ b.justify.blockHeight) := Nat.not_le.mpr hlt
    simp [check_quorum_certificate, hz, hle, hsigs]
  · intro s0 cs hz hlt hhead hcomm hver hcs hlen
    have hle : ¬ (b.height ≤ b.justify.blockHeight) := Nat.not_le.mpr hlt
    have hemp : b.justify.signatures.isEmpty = false := by
      cases hsigs : b.justify.signatures with
      | nil =>
        rw [hsigs] at hhead
        simp at hhead
      | cons a l => simp [hsigs]
    have hconv : ¬ (2 ^ 32 ≤ b.justify.signatures.length) := Nat.not_le.mpr hlen
    constructor
    · intro hq
      simp [check_quorum_certificate, hz, hle, hemp,
        collectLeafHashes_ok env b.justify b.justify.signatures hcomm,
        checkQcSignatures_ok env b.justify b.justify.signatures hver,
        hhead, hcs, hconv, hq]
      simpa using hlen
    · intro hq
      have hq' : ¬ (b.justify.signatures.length < cs.quorumThreshold) :=
        Nat.not_lt.mpr hq
      simp [check_quorum_certificate, hz, hle, hemp,
        collectLeafHashes_ok env b.justify b.justify.signatures hcomm,
        checkQcSignatures_ok env b.justify b.justify.signatures hver,
        hhead, hcs, hconv, hq']
      simpa using hlen

/-- Witness for C1: a zero QC accepts, a too-low candidate rejects, an empty
signature set rejects, two of three signatures reject with quorum shortfall,
and three valid signatures succeed. -/
theorem check_quorum_certificate_spec_witness :
    check_quorum_certificate qcEnvEx bDummyEx = Except.ok ()
    ∧ check_quorum_certificate qcEnvEx bQcLowEx =
        Except.error (ValidationError.candidateBlockNotHigherThanJustify 1 1)
    ∧ check_quorum_certificate qcEnvEx bQcEmptyEx =
        Except.error ValidationError.quorumWasNotReached
    ∧ check_quorum_certificate qcEnvEx bQcTwoEx =
        Except.error ValidationError.quorumWasNotReached
    ∧ check_quorum_certificate qcEnvEx bQcThreeEx = Except.ok () :=
  ⟨(check_quorum_certificate_spec qcEnvEx bDummyEx).1 rfl,
   (check_quorum_certificate_spec qcEnvEx bQcLowEx).2.1 rfl (by decide),
   (check_quorum_certificate_spec qcEnvEx bQcEmptyEx).2.2.1 rfl (by decide) rfl,
   ((check_quorum_certificate_spec qcEnvEx bQcTwoEx).2.2.2 (mkSigEx 10)
      { shardGroup := 1, quorumThreshold := 3 } rfl (by decide) rfl (by decide)
      (by decide) rfl (by decide)).1 (by decide),
   ((check_quorum_certificate_spec qcEnvEx bQcThreeEx).2.2.2 (mkSigEx 10)
      { shardGroup := 1, quorumThreshold := 3 } rfl (by decide) rfl (by decide)
      (by decide) rfl (by decide)).2 (by decide)⟩

/-- C9: WorkingStateStore error paths never mutate state - try_lock on an
absent substate returns SubstateNotFound with the store unchanged, and insert
of an existing substate returns DuplicateSubstate with the store unchanged. -/
theorem working_state_store_error_paths (st : WorkingStateStore) (a : Nat)
    (flag : LockFlag) (v : Value) :
    (st.existsSub a = false →
      st.try_lock a flag = (Except.error (RuntimeError.substateNotFound a), st))
    ∧ (st.existsSub a = true →
      st.insert a v = (Except.error (RuntimeError.duplicateSubstate a), st)) := by
  constructor
  · intro h
    simp [WorkingStateStore.try_lock, h]
  · intro h
    simp [WorkingStateStore.insert, h]

/-- Witness for C9: locking unknown substate 3 fails without mutation, and
re-inserting existing substate 1 fails without mutation. -/
theorem working_state_store_error_paths_witness :
    WorkingStateStore.try_lock wssEx 3 LockFlag.read =
      (Except.error (RuntimeError.substateNotFound 3), wssEx)
    ∧ WorkingStateStore.insert wssEx 1 [9] =
      (Except.error (RuntimeError.duplicateSubstate 1), wssEx) :=
  ⟨(working_state_store_error_paths wssEx 3 LockFlag.read [9]).1 (by decide),
   (working_state_store_error_paths wssEx 1 LockFlag.read [9]).2 (by decide)⟩

theorem find?_append_some (p : α → Bool) (l₁ l₂ : List α) (a : α)
    (h : l₁.find? p = some a) : (l₁ ++ l₂).find? p = some a := by
  induction l₁ with
  | nil => simp [List.find?] at h
  | cons x xs ih =>
    rw [List.cons_append]
    by_cases hx : p x = true
    · rw [List.find?_cons_of_pos _ hx] at h ⊢
      exact h
    · simp only [Bool.not_eq_true] at hx
      rw [List.find?_cons_of_neg _ (by simp [hx])] at h ⊢
      exact ih h

theorem find?_append_none (p : α → Bool) (l₁ l₂ : List α)
    (h : l₁.find? p = none) : (l₁ ++ l₂).find? p = l₂.find? p := by
  induction l₁ with
  | nil => simp
  | cons x xs ih =>
    rw [List.cons_append]
    by_cases hx : p x = true
    · rw [List.find?_cons_of_pos _ hx] at h
      exact absurd h (by simp)
    · simp only [Bool.not_eq_true] at hx
      rw [List.find?_cons_of_neg _ (by simp [hx])] at h
      rw [List.find?_cons_of_neg _ (by simp [hx])]
      exact ih h

/-- Counterexample for C5: inserting block 3 (timestamp 10, parent 1 at
timestamp 5, justify block 2 at timestamp 3) stores block_time 7 - the delta
to the JUSTIFY block - not 5, the delta to the parent named by the claim. -/
theorem blocks_insert_block_time_parent_ce :
    blockTimeOf (blocks_insert tblC5Ex bC5Ex) 3 = some (some 7)
    ∧ (findTimestamp tblC5Ex bC5Ex.parent).map (fun t => bC5Ex.timestamp - t) = some 5
    ∧ blockTimeOf (blocks_insert tblC5Ex bC5Ex) 3 ≠
        some ((findTimestamp tblC5Ex bC5Ex.parent).map (fun t => bC5Ex.timestamp - t)) := by
  refine ⟨by decide, by decide, by decide⟩

/-- C5 amended: for a fresh block id, blocks_insert stores
block_time = b.timestamp minus the timestamp of the block identified by
b.justify.block_id (not the parent block id). -/
theorem blocks_insert_block_time_justify_spec (tbl : List BlockRow) (b : CBlock)
    (j : BlockRow)
    (hnew : tbl.find? (fun r => r.blockId == b.id) = none)
    (hj : tbl.find? (fun r => r.blockId == b.justify.blockId) = some j) :
    blockTimeOf (blocks_insert tbl b) b.id = some (some (b.timestamp - j.timestamp)) := by
  have hmem : ∀ r ∈ tbl, (r.blockId == b.id) = false := by
    intro r hr
    simpa using List.find?_eq_none.mp hnew r hr
  have hts : findTimestamp (tbl ++ [newBlockRow b]) b.justify.blockId =
      some j.timestamp := by
    unfold findTimestamp
    rw [find?_append_some _ _ _ _ hj]
    rfl
  unfold blocks_insert blockTimeOf
  rw [hts]
  rw [List.map_append]
  have hnone :
      (tbl.map (updateRowTime b (some j.timestamp))).find?
        (fun r => r.blockId == b.id) = none := by
    apply List.find?_eq_none.mpr
    intro x hx
    obtain ⟨r, hr, rfl⟩ := List.mem_map.mp hx
    simp [updateRowTime, hmem r hr]
  rw [find?_append_none _ _ _ hnone]
  simp [updateRowTime, newBlockRow]

set_option maxRecDepth 40000 in
/-- Counterexample for C6: a single substate id carrying 1001 locks makes
substate_locks_insert_all issue one insert of 1001 rows, above the claimed
~1000-row bound. -/
theorem substate_locks_chunk_bound_ce :
    ¬ (∀ batch ∈ substate_locks_insert_all_batches [(0, List.range 1001)],
        batch.length ≤ 1000) := by
  decide

theorem chunkFuel_mem_length_le (n : Nat) :
    ∀ (fuel : Nat) (l : List α), ∀ c ∈ chunkFuel n fuel l, c.length ≤ n
  | _, [], c, hc => by simp [chunkFuel] at hc
  | 0, _ :: _, c, hc => by simp [chunkFuel] at hc
  | fuel + 1, a :: rest, c, hc => by
    simp only [chunkFuel, List.mem_cons] at hc
    cases hc with
    | inl h =>
      subst h
      rw [List.length_take]
      exact min_le_left _ _
    | inr h => exact chunkFuel_mem_length_le n fuel _ c h

theorem chunkFuel_flatten (n : Nat) :
    ∀ (fuel : Nat) (l : List α), 0 < n → l.length ≤ fuel →
      (chunkFuel n fuel l).flatten = l
  | fuel, [], _, _ => by cases fuel <;> simp [chunkFuel]
  | 0, a :: rest, _, h => by simp at h
  | fuel + 1, a :: rest, hn, h => by
    simp only [chunkFuel, List.flatten_cons]
    rw [chunkFuel_flatten n fuel _ hn ?_]
    · exact List.take_append_drop n (a :: rest)
    · rw [List.length_drop]
      simp only [List.length_cons] at h ⊢
      omega

theorem substateLockBatchesFuel_bound (m : Nat) :
    ∀ (fuel : Nat) (pairs : List (Nat × List Nat)),
      (∀ p ∈ pairs, p.2.length ≤ m) →
      ∀ batch ∈ substateLockBatchesFuel fuel pairs, batch.length ≤ 100 * m
  | 0, pairs, _, batch, hb => by simp [substateLockBatchesFuel] at hb
  | fuel + 1, pairs, hm, batch, hb => by
    have hrows : ((pairs.take 100).flatMap lockRowsOf).length ≤ 100 * m := by
      rw [List.length_flatMap]
      have h1 : ∀ x ∈ (pairs.take 100).map (fun p => (lockRowsOf p).length), x ≤ m := by
        intro x hx
        obtain ⟨p, hp, rfl⟩ := List.mem_map.mp hx
        have hmm : p ∈ pairs := List.take_subset 100 pairs hp
        simpa [lockRowsOf] using hm p hmm
      have h2 := List.sum_le_card_nsmul _ m h1
      rw [List.length_map, smul_eq_mul] at h2
      calc ((pairs.take 100).map (fun p => (lockRowsOf p).length)).sum
          ≤ (pairs.take 100).length * m := h2
        _ ≤ 100 * m := by
            apply Nat.mul_le_mul_right
            rw [List.length_take]
            exact min_le_left _ _
    simp only [substateLockBatchesFuel] at hb
    split at hb
    · simp at hb
    · split at hb
      · simp only [List.mem_singleton] at hb
        subst hb
        exact hrows
      · simp only [List.mem_cons] at hb
        cases hb with
        | inl h =>
          subst h
          exact hrows
        | inr h =>
          exact substateLockBatchesFuel_bound m fuel _
            (fun p hp => hm p (List.drop_subset 100 pairs hp)) batch h

/-- C6 amended: block_diffs_insert batches at most 1000 change rows per
insert, covering all changes; substate_locks_insert_all batches by at most
100 substate ids per insert, so each insert is bounded only by 100 times the
largest per-substate lock count (an id with more than 1000 locks yields an
insert above 1000 rows). -/
theorem chunked_writes_spec (changes : List Nat) (pairs : List (Nat × List Nat))
    (m : Nat) (hm : ∀ p ∈ pairs, p.2.length ≤ m) :
    (∀ c ∈ block_diffs_insert_batches changes, c.length ≤ 1000)
    ∧ (block_diffs_insert_batches changes).flatten = changes
    ∧ (∀ batch ∈ substate_locks_insert_all_batches pairs, batch.length ≤ 100 * m) := by
  refine ⟨?_, ?_, ?_⟩
  · intro c hc
    exact chunkFuel_mem_length_le 1000 changes.length changes c hc
  · exact chunkFuel_flatten 1000 changes.length changes (by norm_num) le_rfl
  · intro batch hb
    exact substateLockBatchesFuel_bound m (pairs.length + 1) pairs hm batch hb

/-- Witness for C6 amended claim at concrete inputs: five changes and two
substate ids with at most two locks each. -/
theorem chunked_writes_spec_witness :
    (∀ c ∈ block_diffs_insert_batches (List.range 5), c.length ≤ 1000)
    ∧ (block_diffs_insert_batches (List.range 5)).flatten = List.range 5
    ∧ (∀ batch ∈ substate_locks_insert_all_batches [(1, [7, 8]), (2, [9])],
        batch.length ≤ 100 * 2) :=
  chunked_writes_spec (List.range 5) [(1, [7, 8]), (2, [9])] 2 (by decide)

/-- Witness for C5 amended claim: applying the theorem at the concrete
counterexample table yields the justify-based delta 7. -/
theorem blocks_insert_block_time_justify_spec_witness :
    blockTimeOf (blocks_insert tblC5Ex bC5Ex) 3 = some (some 7) :=
  blocks_insert_block_time_justify_spec tblC5Ex bC5Ex
    { blockId := 2, parentBlockId := 0, timestamp := 3, blockTime := none }
    (by decide) (by decide)

/-- C4: missing_transactions_remove(h, t) returns the parked block B exactly
when t was recorded as missing for B at height h and, after deleting the rows
for t, no missing rows remain for B - B is then removed from parked_blocks;
otherwise it returns none and B stays parked. -/
theorem missing_transactions_remove_spec (st : MissingStore) (h tx : Nat) :
    (st.missing.find? (fun r => r.transactionId == tx && r.blockHeight == h) = none →
      missing_transactions_remove st h tx = Except.ok (none, st))
    ∧ (∀ row pr,
      st.missing.find? (fun r => r.transactionId == tx && r.blockHeight == h) =
        some row →
      st.parked.find? (fun p => p.1 == row.blockId) = some pr →
      ((((st.missing.filter (fun r => !(r.transactionId == tx))).filter
          (fun r => r.blockId == row.blockId)).isEmpty = true →
        missing_transactions_remove st h tx = Except.ok (some pr.2,
          { missing := (st.missing.filter (fun r => !(r.transactionId == tx))).filter
              (fun r => !(r.blockHeight < h)),
            parked := st.parked.filter (fun q => !(q.1 == row.blockId)) })
        ∧ (st.parked.filter (fun q => !(q.1 == row.blockId))).find?
            (fun p => p.1 == row.blockId) = none)
      ∧ (((st.missing.filter (fun r => !(r.transactionId == tx))).filter
          (fun r => r.blockId == row.blockId)).isEmpty = false →
        missing_transactions_remove st h tx = Except.ok (none,
          { st with
            missing := st.missing.filter (fun r => !(r.transactionId == tx)) })))) := by
  refine ⟨?_, ?_⟩
  · intro hnone
    simp [missing_transactions_remove, hnone]
  · intro row pr hfind hparked
    refine ⟨fun hemp => ⟨?_, ?_⟩, fun hne => ?_⟩
    · simp only [missing_transactions_remove, hfind]
      rw [if_pos hemp]
      simp only [parked_blocks_remove, hparked]
    · apply List.find?_eq_none.mpr
      intro q hq
      have hq' := List.of_mem_filter hq
      simpa using hq'
    · simp only [missing_transactions_remove, hfind]
      rw [if_neg ?_]
      rw [hne]
      exact Bool.false_ne_true

/-- Witness for C4: an unknown transaction leaves everything unchanged, a
non-final missing transaction deletes its row but keeps block 5 parked, and
the final missing transaction unparks block 5. -/
theorem missing_transactions_remove_spec_witness :
    missing_transactions_remove missStoreEx 2 7 = Except.ok (none, missStoreEx)
    ∧ missing_transactions_remove missStoreEx 2 9 =
        Except.ok (none, { missStoreEx with missing := [missRow2Ex] })
    ∧ missing_transactions_remove missStoreLastEx 2 9 =
        Except.ok (some bGoodSigEx, { missing := [], parked := [] }) := by
  refine ⟨?_, ?_, ?_⟩
  · exact (missing_transactions_remove_spec missStoreEx 2 7).1 (by decide)
  · exact ((missing_transactions_remove_spec missStoreEx 2 9).2 missRow1Ex
      (5, bGoodSigEx) (by decide) (by decide)).2 (by decide)
  · exact (((missing_transactions_remove_spec missStoreLastEx 2 9).2 missRow1Ex
      (5, bGoodSigEx) (by decide) (by decide)).1 (by decide)).1

theorem seqsForShard_append (tbl : List StateTransitionRow)
    (r : StateTransitionRow) (shard : Nat) :
    seqsForShard (tbl ++ [r]) shard =
      seqsForShard tbl shard ++ (if r.shard == shard then [r.seq] else []) := by
  unfold seqsForShard
  rw [List.filterMap_append]
  by_cases h : (r.shard == shard) = true
  · have h' : r.shard = shard := by simpa using h
    simp [h']
  · have h' : ¬ (r.shard = shard) := by simpa using h
    simp [h, h']

theorem maxSeq?_append (l : List Int) (x : Int) :
    maxSeq? (l ++ [x]) =
      some (match maxSeq? l with | none => x | some m => max m x) := by
  cases l with
  | nil => simp [maxSeq?]
  | cons a as => simp [maxSeq?, List.foldl_append]

theorem maxSeq?_range (n : Nat) :
    maxSeq? ((List.range n).map Int.ofNat) =
      if n = 0 then none else some ((n : Int) - 1) := by
  induction n with
  | zero => simp [maxSeq?]
  | succ k ih =>
    rw [List.range_succ, List.map_append]
    simp only [List.map_cons, List.map_nil]
    rw [maxSeq?_append, ih]
    by_cases hk : k = 0
    · subst hk
      simp
    · simp only [hk, if_false, if_neg (Nat.succ_ne_zero k), Int.ofNat_eq_natCast]
      have hmax : max ((k : Int) - 1) ((k : Int)) = (k : Int) := by
        apply max_eq_right
        omega
      simp only [hmax]
      congr 1
      push_cast
      omega

theorem nextSeqFor_eq_count (tbl : List StateTransitionRow) (shard : Nat)
    (hinv : shardSeqsOk tbl) :
    nextSeqFor tbl shard = ((seqsForShard tbl shard).length : Int) := by
  unfold nextSeqFor
  rw [hinv shard, maxSeq?_range]
  simp only [List.length_map, List.length_range]
  by_cases h : (seqsForShard tbl shard).length = 0
  · simp [h]
  · simp only [h, if_false]
    omega

theorem shardSeqsOk_append (tbl : List StateTransitionRow)
    (r : StateTransitionRow) (hinv : shardSeqsOk tbl)
    (hr : r.seq = nextSeqFor tbl r.shard) : shardSeqsOk (tbl ++ [r]) := by
  intro shard
  rw [seqsForShard_append]
  by_cases h : (r.shard == shard) = true
  · have hsh : r.shard = shard := by simpa using h
    have hseq : r.seq = ((seqsForShard tbl shard).length : Int) := by
      rw [hr, hsh]
      exact nextSeqFor_eq_count tbl shard hinv
    rw [if_pos h, hseq]
    rw [List.length_append, List.length_singleton]
    rw [List.range_succ, List.map_append]
    conv_lhs => rw [hinv shard]
    simp [Int.ofNat_eq_natCast]
  · rw [if_neg h, List.append_nil]
    exact hinv shard

/-- C2: substates_create appends exactly one UP transition for the record's
shard with seq equal to the shard's MAX(seq)+1 (0 when the shard is empty),
and substates_down appends exactly one DOWN transition under the same rule;
both preserve the per-shard invariant that seq values are 0,1,...,n-1 with no
gaps. -/
theorem state_transitions_seq_spec (st : SubstateStore) (sub : SubstateRecord)
    (sid ver shard epoch dbh dtx dqc : Nat)
    (hinv : shardSeqsOk st.stateTransitions) (hnd : sub.destroyed = none) :
    (substates_create st sub = Except.ok
        { st with
          substates := st.substates ++ [createdSubstateRow sub],
          stateTransitions := st.stateTransitions ++ [createdTransitionRow st sub] }
      ∧ (createdTransitionRow st sub).transition = Transition.up
      ∧ (createdTransitionRow st sub).shard = sub.createdByShard
      ∧ (createdTransitionRow st sub).seq =
          nextSeqFor st.stateTransitions sub.createdByShard
      ∧ shardSeqsOk (st.stateTransitions ++ [createdTransitionRow st sub]))
    ∧ ((substates_down st sid ver shard epoch dbh dtx dqc).stateTransitions =
          st.stateTransitions ++ [downTransitionRow st sid ver shard epoch]
      ∧ (downTransitionRow st sid ver shard epoch).transition = Transition.down
      ∧ (downTransitionRow st sid ver shard epoch).shard = shard
      ∧ (downTransitionRow st sid ver shard epoch).seq =
          nextSeqFor st.stateTransitions shard
      ∧ shardSeqsOk
          (st.stateTransitions ++ [downTransitionRow st sid ver shard epoch])) := by
  refine ⟨⟨?_, rfl, rfl, rfl, ?_⟩, ⟨rfl, rfl, rfl, rfl, ?_⟩⟩
  · simp [substates_create, hnd]
  · exact shardSeqsOk_append _ _ hinv rfl
  · exact shardSeqsOk_append _ _ hinv rfl

theorem pickLatest_mem :
    ∀ (l : List UpdateRow) (acc : Option UpdateRow) (u : UpdateRow),
      l.foldl (fun acc u =>
        match acc with
        | none => some u
        | some a => if a.blockHeight ≤ u.blockHeight then some u else some a) acc =
        some u →
      u ∈ l ∨ acc = some u
  | [], _, _, h => Or.inr h
  | x :: xs, acc, u, h => by
    rcases pickLatest_mem xs _ u h with hmem | hacc
    · exact Or.inl (List.mem_cons_of_mem x hmem)
    · cases acc with
      | none =>
        have hx : x = u := by simpa using hacc
        exact Or.inl (hx ▸ List.mem_cons_self x xs)
      | some a =>
        by_cases hc : a.blockHeight ≤ x.blockHeight
        · have hx : x = u := by simpa [hc] using hacc
          exact Or.inl (hx ▸ List.mem_cons_self x xs)
        · have ha : a = u := by simpa [hc] using hacc
          exact Or.inr (by rw [ha])

theorem latestUpdateUpTo_props (updates : List UpdateRow) (hgt tx : Nat)
    (u : UpdateRow) (h : latestUpdateUpTo updates hgt tx = some u) :
    u.transactionId = tx ∧ u.blockHeight ≤ hgt := by
  unfold latestUpdateUpTo at h
  rcases pickLatest_mem _ none u h with hmem | hacc
  · have hp := List.of_mem_filter hmem
    simpa using hp
  · simp at hacc

theorem foldl_applyUpdate_eq_map :
    ∀ (promos : List UpdateRow) (pool : List PoolRow),
      (promos.map (fun u => u.transactionId)).Nodup →
      promos.foldl applyUpdate pool =
        pool.map (fun r =>
          match promos.find? (fun v => v.transactionId == r.transactionId) with
          | some v => mergeRow r v
          | none => r)
  | [], pool, _ => by simp
  | u :: rest, pool, hnd => by
    rw [List.map_cons] at hnd
    obtain ⟨hmem, hnd'⟩ := List.nodup_cons.mp hnd
    rw [List.foldl_cons, foldl_applyUpdate_eq_map rest (applyUpdate pool u) hnd']
    unfold applyUpdate
    rw [List.map_map]
    apply List.map_congr_left
    intro r _
    by_cases hru : r.transactionId = u.transactionId
    · have hbeq : (r.transactionId == u.transactionId) = true := by simp [hru]
      have htx : (mergeRow r u).transactionId = r.transactionId := rfl
      have hnone : rest.find? (fun v => v.transactionId == r.transactionId) = none := by
        apply List.find?_eq_none.mpr
        intro v hv
        simp only [Bool.not_eq_true, beq_eq_false_iff_ne]
        intro hveq
        apply hmem
        apply List.mem_map.mpr
        exact ⟨v, hv, by rw [hveq, hru]⟩
      simp only [Function.comp_apply, if_pos hbeq, htx, hnone]
      rw [List.find?_cons_of_pos _ (by simp [hru])]
    · have hbeq : ¬ ((r.transactionId == u.transactionId) = true) := by simp [hru]
      simp only [Function.comp_apply, if_neg hbeq]
      rw [List.find?_cons_of_neg _ (by simp [Ne.symm hru])]

theorem find?_promoted (updates : List UpdateRow) (hgt : Nat) :
    ∀ (txIds : List Nat) (t : Nat),
      (txIds.filterMap (latestUpdateUpTo updates hgt)).find?
        (fun v => v.transactionId == t) =
      if t ∈ txIds then latestUpdateUpTo updates hgt t else none
  | [], t => by simp
  | t' :: rest, t => by
    rw [List.filterMap_cons]
    cases hft : latestUpdateUpTo updates hgt t' with
    | none =>
      rw [find?_promoted updates hgt rest t]
      by_cases h : t = t'
      · subst h
        by_cases hr : t ∈ rest
        · simp [hr]
        · simp [hr, hft]
      · simp [List.mem_cons, h]
    | some u =>
      have hut : u.transactionId = t' := (latestUpdateUpTo_props updates hgt t' u hft).1
      by_cases h : t = t'
      · subst h
        rw [List.find?_cons_of_pos _ (by simp [hut])]
        simp [hft]
      · rw [List.find?_cons_of_neg _ (by simp [hut, Ne.symm h])]
        rw [find?_promoted updates hgt rest t]
        simp [List.mem_cons, h]

theorem promoted_txs_nodup (updates : List UpdateRow) (hgt : Nat) :
    ∀ (txIds : List Nat), txIds.Nodup →
      ((txIds.filterMap (latestUpdateUpTo updates hgt)).map
        (fun u => u.transactionId)).Nodup
  | [], _ => by simp
  | t :: rest, hnd => by
    obtain ⟨hmem, hnd'⟩ := List.nodup_cons.mp hnd
    rw [List.filterMap_cons]
    cases hft : latestUpdateUpTo updates hgt t with
    | none => exact promoted_txs_nodup updates hgt rest hnd'
    | some u =>
      rw [List.map_cons]
      apply List.nodup_cons.mpr
      refine ⟨?_, promoted_txs_nodup updates hgt rest hnd'⟩
      rw [(latestUpdateUpTo_props updates hgt t u hft).1]
      intro hin
      obtain ⟨v, hv, hvt⟩ := List.mem_map.mp hin
      obtain ⟨t2, ht2, hft2⟩ := List.mem_filterMap.mp hv
      have hv2 := (latestUpdateUpTo_props updates hgt t2 v hft2).1
      rw [hv2] at hvt
      rw [hvt] at ht2
      exact hmem ht2

/-- C3: when every queried transaction id has a pool row,
transaction_pool_set_all_transitions deletes every pending update for those
ids with block height at most the new locked height and writes the latest
such update (stage, local decision, evidence, is_ready) into each pool row,
leaving other rows alone; when some queried id has no pool row it fails with
NotAllTransactionsFound. -/
theorem transaction_pool_set_all_transitions_spec (st : PoolState)
    (lockedBlock newLockedBlock : LockedBlockRef) (txIds : List Nat)
    (hpool : (st.pool.map (fun r => r.transactionId)).Nodup)
    (hids : txIds.Nodup) :
    ((∃ t ∈ txIds, ∀ r ∈ st.pool, r.transactionId ≠ t) →
      transaction_pool_set_all_transitions st lockedBlock newLockedBlock txIds =
        Except.error StorageError.notAllTransactionsFound)
    ∧ ((∀ t ∈ txIds, ∃ r ∈ st.pool, r.transactionId = t) →
      transaction_pool_set_all_transitions st lockedBlock newLockedBlock txIds =
        Except.ok
          { pool := st.pool.map (fun r =>
              if txIds.contains r.transactionId then
                match latestUpdateUpTo st.updates newLockedBlock.height
                    r.transactionId with
                | some u => mergeRow r u
                | none => r
              else r),
            updates := st.updates.filter (fun u =>
              !(txIds.contains u.transactionId &&
                decide (u.blockHeight ≤ newLockedBlock.height))) }) := by
  have hfnodup :
      ((st.pool.filter (fun r => txIds.contains r.transactionId)).map
        (fun r => r.transactionId)).Nodup :=
    List.Nodup.sublist (List.Sublist.map _ (List.filter_sublist _)) hpool
  have hfsub :
      (st.pool.filter (fun r => txIds.contains r.transactionId)).map
        (fun r => r.transactionId) ⊆ txIds := by
    intro t ht
    obtain ⟨r, hr, rfl⟩ := List.mem_map.mp ht
    have hr2 := List.of_mem_filter hr
    simpa using hr2
  constructor
  · rintro ⟨t, htmem, hno⟩
    have hne : (st.pool.filter
        (fun r => txIds.contains r.transactionId)).length ≠ txIds.length := by
      intro heq
      have hlen : txIds.length ≤
          ((st.pool.filter (fun r => txIds.contains r.transactionId)).map
            (fun r => r.transactionId)).length := by
        rw [List.length_map, heq]
      have hperm := (List.subperm_of_subset hfnodup hfsub).perm_of_length_le hlen
      have hmem2 := hperm.mem_iff.mpr htmem
      obtain ⟨r, hr, hrt⟩ := List.mem_map.mp hmem2
      exact hno r (List.mem_of_mem_filter hr) hrt
    simp only [transaction_pool_set_all_transitions]
    rw [if_pos hne]
  · intro hall
    have hsub2 : txIds ⊆
        (st.pool.filter (fun r => txIds.contains r.transactionId)).map
          (fun r => r.transactionId) := by
      intro t ht
      obtain ⟨r, hr, hrt⟩ := hall t ht
      apply List.mem_map.mpr
      refine ⟨r, ?_, hrt⟩
      apply List.mem_filter.mpr
      refine ⟨hr, ?_⟩
      rw [hrt]
      simpa using ht
    have heq : (st.pool.filter
        (fun r => txIds.contains r.transactionId)).length = txIds.length := by
      have hperm := (List.subperm_of_subset hfnodup hfsub).antisymm
        (List.subperm_of_subset hids hsub2)
      have hlen := hperm.length_eq
      rw [List.length_map] at hlen
      exact hlen
    simp only [transaction_pool_set_all_transitions]
    rw [if_neg (fun hcontra => hcontra heq)]
    congr 1
    refine congrArg₂ PoolState.mk ?_ rfl
    rw [foldl_applyUpdate_eq_map _ _
      (promoted_txs_nodup st.updates newLockedBlock.height txIds hids)]
    apply List.map_congr_left
    intro r _
    rw [find?_promoted st.updates newLockedBlock.height txIds r.transactionId]
    by_cases hc : r.transactionId ∈ txIds
    · rw [if_pos hc]
      have hcb : txIds.contains r.transactionId = true := by simpa using hc
      rw [if_pos hcb]
    · rw [if_neg hc]
      have hcb : ¬ (txIds.contains r.transactionId = true) := by simpa using hc
      rw [if_neg hcb]

/-- Witness for C3: promoting transaction 1 to stage 2 via the pending update
at height 3 moves the pool row and deletes the superseded update, while
querying the absent transaction 2 fails. -/
theorem transaction_pool_set_all_transitions_spec_witness :
    transaction_pool_set_all_transitions poolStEx lbEx nlbEx [1] =
      Except.ok
        { pool := [{ transactionId := 1, stage := 2, localDecision := some 1,
                     evidence := some 5, isReady := true }],
          updates := [] }
    ∧ transaction_pool_set_all_transitions poolStEx lbEx nlbEx [1, 2] =
      Except.error StorageError.notAllTransactionsFound := by
  constructor
  · have h := (transaction_pool_set_all_transitions_spec poolStEx lbEx nlbEx [1]
      (by decide) (by decide)).2 (by decide)
    rw [h]
    rfl
  · exact (transaction_pool_set_all_transitions_spec poolStEx lbEx nlbEx [1, 2]
      (by decide) (by decide)).1 (by decide)

/-- Witness for C2 at the empty store: the UP transition gets seq 0 and the
invariant holds afterwards. -/
theorem state_transitions_seq_spec_witness :
    substates_create subStoreEx subRecEx = Except.ok
      { subStoreEx with
        substates := subStoreEx.substates ++ [createdSubstateRow subRecEx],
        stateTransitions :=
          subStoreEx.stateTransitions ++ [createdTransitionRow subStoreEx subRecEx] }
    ∧ (createdTransitionRow subStoreEx subRecEx).seq =
        nextSeqFor subStoreEx.stateTransitions subRecEx.createdByShard
    ∧ shardSeqsOk
        (subStoreEx.stateTransitions ++ [createdTransitionRow subStoreEx subRecEx]) :=
  ⟨(state_transitions_seq_spec subStoreEx subRecEx 4 0 2 0 9 8 7
      (fun _ => rfl) rfl).1.1,
   (state_transitions_seq_spec subStoreEx subRecEx 4 0 2 0 9 8 7
      (fun _ => rfl) rfl).1.2.2.2.1,
   (state_transitions_seq_spec subStoreEx subRecEx 4 0 2 0 9 8 7
      (fun _ => rfl) rfl).1.2.2.2.2⟩

end TariDan
